import Mathlib

/-!
Shallow embedding of the job-board core: the filter/search engine
(`filteredJobs` and its per-field predicates in `JobBoard.tsx`), the
saved-mark reconciliation handler (`handleSaveJob`, `isJobSaved`), and the
record-loading/deserialization path (`loadJobs`, `loadSavedJobs` in
`App.tsx`), together with models of the JavaScript library functions they
call (`toLowerCase`, `String.prototype.includes`, `parseInt`,
`JSON.parse`).  Numeric salary fields are modelled as integers.
-/

/-! ## Models of JavaScript string primitives -/

/-- Model of JavaScript `toLowerCase` on one character, for the ASCII
range (the only range exercised by this application's data). -/
def charToLower (c : Char) : Char :=
  if 'A' ≤ c ∧ c ≤ 'Z' then Char.ofNat (c.toNat + 32) else c

/-- Model of JavaScript `String.prototype.toLowerCase` (ASCII range). -/
def toLowerCase (s : String) : String := ⟨s.data.map charToLower⟩

/-- Contiguous-sublist test on character lists: the computational core of
JavaScript `String.prototype.includes`. -/
def listIncludes : List Char → List Char → Bool
  | hay, needle =>
    needle.isPrefixOf hay ||
      match hay with
      | [] => false
      | _ :: t => listIncludes t needle

/-- Model of JavaScript `s.includes(sub)`. -/
def jsIncludes (s sub : String) : Bool := listIncludes s.data sub.data

/-- Model of JavaScript `parseInt(s)` for decimal input: skip leading
whitespace, take an optional sign and the longest digit prefix; `none`
models the `NaN` result when no digit is found.  (The hexadecimal `0x`
form of `parseInt` is not modelled; the application only passes decimal
filter strings.) -/
def parseIntJS (s : String) : Option Int :=
  let cs := s.data.dropWhile (fun c => c = ' ' ∨ c = '\t' ∨ c = '\n' ∨ c = '\r')
  let signAndRest : Bool × List Char :=
    match cs with
    | '-' :: rest => (true, rest)
    | '+' :: rest => (false, rest)
    | _ => (false, cs)
  let ds := signAndRest.2.takeWhile Char.isDigit
  if ds.isEmpty then none
  else
    let n : Nat := ds.foldl (fun acc c => acc * 10 + (c.toNat - 48)) 0
    some (if signAndRest.1 then -(n : Int) else (n : Int))

/-! ## Data model (`App.tsx` interfaces `Job` and `SavedJob`) -/

/-- The `Job` interface of `App.tsx`.  Optional fields are `Option`;
`tags` is the parsed ordered sequence of tag strings. -/
structure Job where
  id : String
  title : String
  company : String
  location : String
  salaryMin : Option Int
  salaryMax : Option Int
  salaryCurrency : String
  description : String
  requirements : Option String
  benefits : Option String
  employmentType : String
  experienceLevel : String
  applicationType : String
  applicationEmail : Option String
  applicationLink : Option String
  tags : List String
  userId : String
  createdAt : String
  updatedAt : String
deriving DecidableEq

/-- The `SavedJob` interface of `App.tsx`: one saved mark. -/
structure SavedJob where
  id : String
  jobId : String
  userId : String
  createdAt : String
deriving DecidableEq

/-! ## Filter engine (`JobBoard.tsx`) -/

/-- The five filter predicates held in `JobBoard`'s component state
(`searchQuery`, `locationFilter`, `employmentTypeFilter`,
`experienceLevelFilter`, `salaryMinFilter`).  The empty string means the
predicate is inactive, matching the source's `!filter` tests. -/
structure FilterState where
  searchQuery : String
  locationFilter : String
  employmentTypeFilter : String
  experienceLevelFilter : String
  salaryMinFilter : String
deriving DecidableEq

/-- The `matchesSearch` conjunct of `filteredJobs`: `!searchQuery ||`
case-insensitive substring match against title, company, description, or
any tag. -/
def matchesSearch (q : String) (j : Job) : Bool :=
  q == "" ||
    jsIncludes (toLowerCase j.title) (toLowerCase q) ||
    jsIncludes (toLowerCase j.company) (toLowerCase q) ||
    jsIncludes (toLowerCase j.description) (toLowerCase q) ||
    j.tags.any (fun tag => jsIncludes (toLowerCase tag) (toLowerCase q))

/-- The `matchesLocation` conjunct: `!locationFilter || job.location === locationFilter`. -/
def matchesLocation (filt : String) (j : Job) : Bool :=
  filt == "" || j.location == filt

/-- The `matchesEmploymentType` conjunct. -/
def matchesEmploymentType (filt : String) (j : Job) : Bool :=
  filt == "" || j.employmentType == filt

/-- The `matchesExperienceLevel` conjunct. -/
def matchesExperienceLevel (filt : String) (j : Job) : Bool :=
  filt == "" || j.experienceLevel == filt

/-- The `matchesSalary` conjunct:
`!salaryMinFilter || (job.salaryMin && job.salaryMin >= parseInt(salaryMinFilter))`.
JavaScript truthiness makes `job.salaryMin &&` fail both when `salaryMin`
is `undefined` and when it is `0`; a `NaN` from `parseInt` makes the
comparison false. -/
def matchesSalary (filt : String) (j : Job) : Bool :=
  filt == "" ||
    (match j.salaryMin with
     | none => false
     | some m =>
       if m == 0 then false
       else
         match parseIntJS filt with
         | none => false
         | some t => decide (t ≤ m))

/-- The whole predicate of the `jobs.filter` callback in `filteredJobs`:
the conjunction of the five per-field matches. -/
def passesFilters (fs : FilterState) (j : Job) : Bool :=
  matchesSearch fs.searchQuery j &&
  matchesLocation fs.locationFilter j &&
  matchesEmploymentType fs.employmentTypeFilter j &&
  matchesExperienceLevel fs.experienceLevelFilter j &&
  matchesSalary fs.salaryMinFilter j

/-- The `filteredJobs` memo of `JobBoard.tsx`: `jobs.filter(...)` with the
conjunction of the five predicates. -/
def filteredJobs (jobs : List Job) (fs : FilterState) : List Job :=
  jobs.filter (passesFilters fs)

/-- The filter state with every predicate inactive (all five component
states at their initial empty-string value). -/
def emptyFilterState : FilterState :=
  { searchQuery := "", locationFilter := "", employmentTypeFilter := ""
  , experienceLevelFilter := "", salaryMinFilter := "" }

/-- The `clearFilters` handler of `JobBoard.tsx`: sets all five filter
states to the empty string, whatever they were before. -/
def clearFilters (_fs : FilterState) : FilterState := emptyFilterState

/-- Names of the five filter predicates, used to state per-predicate
properties of the engine. -/
inductive FilterField where
  | search
  | location
  | employmentType
  | experienceLevel
  | salary
deriving DecidableEq

/-- Read one predicate out of a `FilterState`. -/
def FilterState.getField (fs : FilterState) : FilterField → String
  | .search => fs.searchQuery
  | .location => fs.locationFilter
  | .employmentType => fs.employmentTypeFilter
  | .experienceLevel => fs.experienceLevelFilter
  | .salary => fs.salaryMinFilter

/-- Replace one predicate of a `FilterState`, leaving the others fixed. -/
def FilterState.setField (fs : FilterState) : FilterField → String → FilterState
  | .search, v => { fs with searchQuery := v }
  | .location, v => { fs with locationFilter := v }
  | .employmentType, v => { fs with employmentTypeFilter := v }
  | .experienceLevel, v => { fs with experienceLevelFilter := v }
  | .salary, v => { fs with salaryMinFilter := v }

/-- The `isJobSaved` helper of `JobBoard.tsx`:
`savedJobs.some(save => save.jobId === jobId)`.  Note it tests only
`jobId`, never `userId`. -/
def isJobSaved (savedJobs : List SavedJob) (jobId : String) : Bool :=
  savedJobs.any (fun save => save.jobId == jobId)

/-! ## Save-state reconciliation (`handleSaveJob` in `App.tsx`) -/

/-- The raw saved-mark row as the store returns it (snake_case fields of
the `blink.db.savedJobs` responses). -/
structure RawSavedJob where
  id : String
  job_id : String
  user_id : String
  created_at : String
deriving DecidableEq

/-- A store call issued by `handleSaveJob`: `blink.db.savedJobs.delete(id)`
or `blink.db.savedJobs.create` with the generated id and the requested
`jobId`/`userId` payload. -/
inductive StoreOp where
  | delete (id : String)
  | create (id : String) (jobId : String) (userId : String)
deriving DecidableEq

/-- The exit path taken by one `handleSaveJob` run.  `notAuthenticated`
labels the `if (!user) return` guard (the spec's `NotAuthenticated`
rejection); `unsaved` and `saved` are the two success toasts; `failed` is
the `catch` block's error toast. -/
inductive SaveOutcome where
  | notAuthenticated
  | unsaved (deletedId : String)
  | saved (mark : SavedJob)
  | failed
deriving DecidableEq

/-- Observable result of one `handleSaveJob` run: the store calls issued,
the local saved list while the store call is in flight (between issuing
the awaited call and its resolution), the local saved list after the
handler finishes, and the exit path. -/
structure HandlerResult where
  ops : List StoreOp
  pendingSaved : List SavedJob
  finalSaved : List SavedJob
  outcome : SaveOutcome
deriving DecidableEq

/-- The `handleSaveJob` handler of `App.tsx`, as a function of its inputs
and of the store's response.  `user` is the authenticated user's id (or
`none`); `savedJobs` is the current local saved list; `genId` stands for
the generated string of the source's template
(date and random suffix); `createResult` / `deleteResult` are the store's
responses to the call the handler awaits (only the one actually issued
matters).  The source awaits the store call first and only then applies
`setSavedJobs`, so `pendingSaved` — the list visible while the call is in
flight — always equals the input list; on a thrown store error the
`catch` block runs and `setSavedJobs` is never applied. -/
def handleSaveJob (user : Option String) (savedJobs : List SavedJob)
    (jobId : String) (genId : String)
    (createResult : Except Unit RawSavedJob) (deleteResult : Except Unit Unit) :
    HandlerResult :=
  match user with
  | none => ⟨[], savedJobs, savedJobs, .notAuthenticated⟩
  | some uid =>
    match savedJobs.find? (fun save => save.jobId == jobId) with
    | some existingSave =>
      match deleteResult with
      | .ok _ =>
        ⟨[.delete existingSave.id], savedJobs,
          savedJobs.filter (fun save => save.id != existingSave.id),
          .unsaved existingSave.id⟩
      | .error _ =>
        ⟨[.delete existingSave.id], savedJobs, savedJobs, .failed⟩
    | none =>
      match createResult with
      | .ok newSave =>
        ⟨[.create genId jobId uid], savedJobs,
          savedJobs ++ [⟨newSave.id, newSave.job_id, newSave.user_id, newSave.created_at⟩],
          .saved ⟨newSave.id, newSave.job_id, newSave.user_id, newSave.created_at⟩⟩
      | .error _ =>
        ⟨[.create genId jobId uid], savedJobs, savedJobs, .failed⟩

/-- The `loadSavedJobs` formatter of `App.tsx`: each raw row is mapped
field-for-field into a `SavedJob`; the list replaces the local snapshot
wholesale.  No deduplication of any kind is performed. -/
def loadSavedJobs (rows : List RawSavedJob) : List SavedJob :=
  rows.map (fun savedJob => ⟨savedJob.id, savedJob.job_id, savedJob.user_id, savedJob.created_at⟩)

/-! ## Model of `JSON.parse` and the record-loading path (`loadJobs`) -/

/-- JSON values.  Number lexemes are kept as strings (the application
never consumes a numeric tag, so their numeric value is irrelevant). -/
inductive Json where
  | null
  | bool (b : Bool)
  | num (lexeme : String)
  | str (s : String)
  | arr (elems : List Json)
  | obj (members : List (String × Json))

/-- JSON insignificant whitespace. -/
def isJsonWs (c : Char) : Bool := c == ' ' || c == '\t' || c == '\n' || c == '\r'

/-- Drop leading JSON whitespace. -/
def skipWs (cs : List Char) : List Char := cs.dropWhile isJsonWs

/-- Hexadecimal digit test, for string escapes. -/
def isHexDigit (c : Char) : Bool :=
  c.isDigit || ('a' ≤ c ∧ c ≤ 'f') || ('A' ≤ c ∧ c ≤ 'F')

/-- Value of a hexadecimal digit. -/
def hexVal (c : Char) : Nat :=
  if c.isDigit then c.toNat - 48
  else if 'a' ≤ c ∧ c ≤ 'f' then c.toNat - 87
  else c.toNat - 55

/-- Single-character JSON string escapes. -/
def escChar (c : Char) : Option Char :=
  if c = '"' then some '"'
  else if c = '\\' then some '\\'
  else if c = '/' then some '/'
  else if c = 'b' then some (Char.ofNat 8)
  else if c = 'f' then some (Char.ofNat 12)
  else if c = 'n' then some '\n'
  else if c = 'r' then some '\r'
  else if c = 't' then some '\t'
  else none

/-- Parse the body of a JSON string after its opening quote, returning the
decoded characters and the rest of the input.  Unescaped control
characters and bad escapes are errors; a `\uXXXX` escape whose code point
is not a Unicode scalar decodes through `Char.ofNat`'s default. -/
def parseStringChars : List Char → Except Unit (List Char × List Char)
  | [] => .error ()
  | '"' :: rest => .ok ([], rest)
  | '\\' :: rest =>
    match rest with
    | [] => .error ()
    | e :: rest2 =>
      match escChar e with
      | some c => (parseStringChars rest2).map (fun p => (c :: p.1, p.2))
      | none =>
        if e = 'u' then
          match rest2 with
          | h1 :: h2 :: h3 :: h4 :: rest3 =>
            if isHexDigit h1 && isHexDigit h2 && isHexDigit h3 && isHexDigit h4 then
              (parseStringChars rest3).map (fun p =>
                (Char.ofNat (((hexVal h1 * 16 + hexVal h2) * 16 + hexVal h3) * 16 + hexVal h4) :: p.1, p.2))
            else .error ()
          | _ => .error ()
        else .error ()
  | c :: rest =>
    if c.toNat < 32 then .error ()
    else (parseStringChars rest).map (fun p => (c :: p.1, p.2))

/-- Parse an optional JSON fraction part, returning its lexeme. -/
def parseFracPart : List Char → Except Unit (List Char × List Char)
  | '.' :: cs =>
    let ds := cs.takeWhile Char.isDigit
    if ds.isEmpty then .error ()
    else .ok ('.' :: ds, cs.dropWhile Char.isDigit)
  | cs => .ok ([], cs)

/-- Parse an optional JSON exponent part, returning its lexeme. -/
def parseExpPart : List Char → Except Unit (List Char × List Char)
  | [] => .ok ([], [])
  | c :: cs =>
    if c = 'e' ∨ c = 'E' then
      let signAndRest : List Char × List Char :=
        match cs with
        | '+' :: r => (['+'], r)
        | '-' :: r => (['-'], r)
        | _ => ([], cs)
      let ds := signAndRest.2.takeWhile Char.isDigit
      if ds.isEmpty then .error ()
      else .ok (c :: signAndRest.1 ++ ds, signAndRest.2.dropWhile Char.isDigit)
    else .ok ([], c :: cs)

/-- Parse a JSON number lexeme (`-? int frac? exp?`, no leading zeros). -/
def parseNumberLex (cs : List Char) : Except Unit (List Char × List Char) :=
  let signAndRest : List Char × List Char :=
    match cs with
    | '-' :: r => (['-'], r)
    | _ => ([], cs)
  match signAndRest.2 with
  | [] => .error ()
  | c :: _ =>
    if ¬ c.isDigit then .error ()
    else
      let intPart := signAndRest.2.takeWhile Char.isDigit
      let afterInt := signAndRest.2.dropWhile Char.isDigit
      if c = '0' ∧ intPart.length ≠ 1 then .error ()
      else do
        let fr ← parseFracPart afterInt
        let ex ← parseExpPart fr.2
        .ok (signAndRest.1 ++ intPart ++ fr.1 ++ ex.1, ex.2)

mutual

/-- Fuel-indexed recursive-descent parser for one JSON value.  Together
with `parseElements` and `parseMembers` this models the grammar accepted
by JavaScript `JSON.parse`; `jsonParse` supplies fuel ample for every
input, so fuel exhaustion only ever coincides with malformed input. -/
def parseValue : Nat → List Char → Except Unit (Json × List Char)
  | 0, _ => .error ()
  | Nat.succ fuel, cs =>
    match skipWs cs with
    | 'n' :: 'u' :: 'l' :: 'l' :: rest => .ok (.null, rest)
    | 't' :: 'r' :: 'u' :: 'e' :: rest => .ok (.bool true, rest)
    | 'f' :: 'a' :: 'l' :: 's' :: 'e' :: rest => .ok (.bool false, rest)
    | '"' :: rest => (parseStringChars rest).map (fun p => (.str ⟨p.1⟩, p.2))
    | '[' :: rest =>
      (match skipWs rest with
       | ']' :: rest2 => .ok (.arr [], rest2)
       | cs2 => (parseElements fuel cs2).map (fun p => (.arr p.1, p.2)))
    | '\x7b' :: rest =>
      (match skipWs rest with
       | '\x7d' :: rest2 => .ok (.obj [], rest2)
       | cs2 => (parseMembers fuel cs2).map (fun p => (.obj p.1, p.2)))
    | cs1 => (parseNumberLex cs1).map (fun p => (.num ⟨p.1⟩, p.2))

/-- Parse the comma-separated elements of a non-empty JSON array, up to
and including the closing bracket. -/
def parseElements : Nat → List Char → Except Unit (List Json × List Char)
  | 0, _ => .error ()
  | Nat.succ fuel, cs => do
    let v ← parseValue fuel cs
    match skipWs v.2 with
    | ',' :: rest2 => (parseElements fuel rest2).map (fun p => (v.1 :: p.1, p.2))
    | ']' :: rest2 => .ok ([v.1], rest2)
    | _ => .error ()

/-- Parse the comma-separated members of a non-empty JSON object, up to
and including the closing brace. -/
def parseMembers : Nat → List Char → Except Unit (List (String × Json) × List Char)
  | 0, _ => .error ()
  | Nat.succ fuel, cs =>
    match skipWs cs with
    | '"' :: rest => do
      let k ← parseStringChars rest
      match skipWs k.2 with
      | ':' :: rest2 => do
        let v ← parseValue fuel rest2
        match skipWs v.2 with
        | ',' :: rest4 => (parseMembers fuel rest4).map (fun p => ((⟨k.1⟩, v.1) :: p.1, p.2))
        | '\x7d' :: rest4 => .ok ([(⟨k.1⟩, v.1)], rest4)
        | _ => .error ()
      | _ => .error ()
    | _ => .error ()

end

/-- Model of JavaScript `JSON.parse`: parse one value and require only
whitespace to remain.  `.error` models the `SyntaxError` the builtin
throws on malformed input. -/
def jsonParse (s : String) : Except Unit Json := do
  let v ← parseValue (2 * s.length + 2) s.data
  if (skipWs v.2).isEmpty then .ok v.1 else .error ()

/-- Read a parsed JSON array's elements as a list of strings, failing on
any non-string element (such a value cannot inhabit `Job.tags`; in the
running code it would surface as an exception where the tags are
consumed). -/
def asStringList : List Json → Except Unit (List String)
  | [] => .ok []
  | .str s :: rest => (asStringList rest).map (fun l => s :: l)
  | _ => .error ()

/-- The tags deserialization of `loadJobs`:
`tags: job.tags ? JSON.parse(job.tags) : []`.  A missing (`undefined` or
`null`) field and the empty string are falsy, yielding `[]` without
parsing; any other string goes through `JSON.parse`, which throws on
malformed input. -/
def parseTags (tags : Option String) : Except Unit (List String) :=
  match tags with
  | none => .ok []
  | some s =>
    if s = "" then .ok []
    else
      match jsonParse s with
      | .ok (.arr elems) => asStringList elems
      | .ok _ => .error ()
      | .error e => .error e

/-- The raw job row as the store returns it (snake_case fields of the
`blink.db.jobs.list` response), before the `formattedJobs` mapping. -/
structure RawJob where
  id : String
  title : String
  company : String
  location : String
  description : String
  requirements : Option String
  benefits : Option String
  tags : Option String
  salary_min : Option Int
  salary_max : Option Int
  salary_currency : Option String
  employment_type : String
  experience_level : String
  application_type : String
  application_email : Option String
  application_link : Option String
  user_id : String
  created_at : String
  updated_at : String
deriving DecidableEq

/-- Model of the JavaScript `x || 'USD'` default: falsy (`undefined`,
`null`, or the empty string) falls back to the default. -/
def jsOrDefault (x : Option String) (d : String) : String :=
  match x with
  | none => d
  | some s => if s = "" then d else s

/-- One element of the `formattedJobs` mapping in `loadJobs`: the raw row
translated to a `Job`, failing exactly when the tags deserialization
throws. -/
def formatJob (job : RawJob) : Except Unit Job := do
  let tags ← parseTags job.tags
  .ok
    { id := job.id, title := job.title, company := job.company
    , location := job.location, salaryMin := job.salary_min
    , salaryMax := job.salary_max
    , salaryCurrency := jsOrDefault job.salary_currency "USD"
    , description := job.description, requirements := job.requirements
    , benefits := job.benefits, employmentType := job.employment_type
    , experienceLevel := job.experience_level
    , applicationType := job.application_type
    , applicationEmail := job.application_email
    , applicationLink := job.application_link, tags := tags
    , userId := job.user_id, createdAt := job.created_at
    , updatedAt := job.updated_at }

/-- The `loadJobs` callback of `App.tsx` as a state transformer on the
local job list: on a failed list call, or on a throw while formatting any
row, the `catch` block runs and `setJobs` is never applied, so the
previous snapshot is retained; otherwise the formatted rows replace it. -/
def loadJobs (prevJobs : List Job) (response : Except Unit (List RawJob)) : List Job :=
  match response with
  | .error _ => prevJobs
  | .ok rows =>
    match rows.mapM formatJob with
    | .ok jobsData => jobsData
    | .error _ => prevJobs

/-! ## Concrete test fixtures and the spec's uniqueness invariant -/

/-- A job record with every field at its neutral value, used to build
concrete test records. -/
def blankJob : Job :=
  { id := "", title := "", company := "", location := "", salaryMin := none
  , salaryMax := none, salaryCurrency := "USD", description := ""
  , requirements := none, benefits := none, employmentType := ""
  , experienceLevel := "", applicationType := "email"
  , applicationEmail := none, applicationLink := none, tags := []
  , userId := "", createdAt := "", updatedAt := "" }

/-- A raw job row with every field at its neutral value, used to build
concrete loading tests. -/
def blankRawJob : RawJob :=
  { id := "", title := "", company := "", location := "", description := ""
  , requirements := none, benefits := none, tags := none, salary_min := none
  , salary_max := none, salary_currency := none, employment_type := ""
  , experience_level := "", application_type := "email"
  , application_email := none, application_link := none, user_id := ""
  , created_at := "", updated_at := "" }

/-- The design invariant of the spec: at most one `SavedMark` per
`(userId, recordId)` pair in a local mark list. -/
def atMostOneMarkPerPair (l : List SavedJob) : Prop :=
  l.Pairwise (fun a b => ¬(a.userId = b.userId ∧ a.jobId = b.jobId))

/-! ## Library-bridging lemmas -/

theorem listIncludes_iff_infix (needle hay : List Char) :
    listIncludes hay needle = true ↔ needle <:+: hay := by
  induction hay with
  | nil => simp [ List.isPrefixOf_iff_prefix, listIncludes]
  | cons a t ih =>
    rw [listIncludes]
    simp [ List.isPrefixOf_iff_prefix, ih, List.infix_cons_iff]

theorem jsIncludes_iff (s sub : String) :
    jsIncludes s sub = true ↔ sub.data <:+: s.data :=
  listIncludes_iff_infix sub.data s.data

theorem matchesSearch_empty (j : Job) : matchesSearch "" j = true := by
  simp [matchesSearch]

theorem matchesLocation_empty (j : Job) : matchesLocation "" j = true := by
  simp [matchesLocation]

theorem matchesEmploymentType_empty (j : Job) : matchesEmploymentType "" j = true := by
  simp [matchesEmploymentType]

theorem matchesExperienceLevel_empty (j : Job) : matchesExperienceLevel "" j = true := by
  simp [matchesExperienceLevel]

theorem matchesSalary_empty (j : Job) : matchesSalary "" j = true := by
  simp [matchesSalary]

theorem passesFilters_empty (j : Job) : passesFilters emptyFilterState j = true := by
  simp [passesFilters, emptyFilterState, matchesSearch, matchesLocation,
    matchesEmploymentType, matchesExperienceLevel, matchesSalary]

/-! ## Claim theorems -/

/-- C1 counterexample: toggling an unsaved record issues the create, but
the local saved list visible while the call is in flight is the unchanged
input, so `isSaved` is still false before the store confirms — the update
is not optimistic. -/
theorem handleSaveJob_not_optimistic_counterexample :
    (handleSaveJob (some "u1") [] "j1" "g1" (.ok ⟨"s1", "j1", "u1", "t1"⟩) (.ok ())).ops =
      [.create "g1" "j1" "u1"] ∧
    isJobSaved (handleSaveJob (some "u1") [] "j1" "g1"
      (.ok ⟨"s1", "j1", "u1", "t1"⟩) (.ok ())).pendingSaved "j1" = false := by decide

/-- C1 (amended): on an unsaved record `handleSaveJob` issues the create
with the generated id, but adds the mark to local state only after the
store's create resolves; the in-flight saved list is unchanged (so
`isSaved` is still false then), and on success the appended entry carries
the store-confirmed identity, after which `isSaved` is true. -/
theorem handleSaveJob_create_confirm_first (uid : String) (l : List SavedJob)
    (jobId genId : String) (raw : RawSavedJob) (dr : Except Unit Unit)
    (h : l.find? (fun save => save.jobId == jobId) = none) :
    (handleSaveJob (some uid) l jobId genId (.ok raw) dr).ops = [.create genId jobId uid] ∧
    (handleSaveJob (some uid) l jobId genId (.ok raw) dr).pendingSaved = l ∧
    isJobSaved (handleSaveJob (some uid) l jobId genId (.ok raw) dr).pendingSaved jobId = false ∧
    (handleSaveJob (some uid) l jobId genId (.ok raw) dr).finalSaved =
      l ++ [⟨raw.id, raw.job_id, raw.user_id, raw.created_at⟩] ∧
    (raw.job_id = jobId →
      isJobSaved (handleSaveJob (some uid) l jobId genId (.ok raw) dr).finalSaved jobId = true) := by
  have hnone := List.find?_eq_none.mp h
  simp only [handleSaveJob, h]
  refine ⟨trivial, trivial, ?_, trivial, ?_⟩
  · simp only [isJobSaved]
    exact List.any_eq_false.mpr hnone
  · intro hecho
    simp only [isJobSaved, List.any_eq_true]
    exact ⟨⟨raw.id, raw.job_id, raw.user_id, raw.created_at⟩,
      List.mem_append_right l (List.mem_singleton.mpr rfl), by simp [hecho]⟩

theorem handleSaveJob_create_confirm_first_witness :
    (handleSaveJob (some "u1") [] "j1" "g1" (.ok ⟨"s1", "j1", "u1", "t1"⟩) (.ok ())).ops =
      [.create "g1" "j1" "u1"] ∧
    (handleSaveJob (some "u1") [] "j1" "g1" (.ok ⟨"s1", "j1", "u1", "t1"⟩) (.ok ())).pendingSaved = [] ∧
    isJobSaved (handleSaveJob (some "u1") [] "j1" "g1"
      (.ok ⟨"s1", "j1", "u1", "t1"⟩) (.ok ())).pendingSaved "j1" = false ∧
    (handleSaveJob (some "u1") [] "j1" "g1" (.ok ⟨"s1", "j1", "u1", "t1"⟩) (.ok ())).finalSaved =
      [] ++ [⟨"s1", "j1", "u1", "t1"⟩] ∧
    (("j1" : String) = "j1" →
      isJobSaved (handleSaveJob (some "u1") [] "j1" "g1"
        (.ok ⟨"s1", "j1", "u1", "t1"⟩) (.ok ())).finalSaved "j1" = true) :=
  handleSaveJob_create_confirm_first "u1" [] "j1" "g1" ⟨"s1", "j1", "u1", "t1"⟩ (.ok ()) rfl

/-- C2 counterexample: an unparsable tags string makes the tags
deserialization raise (the source's `JSON.parse` throws), instead of
yielding the empty sequence as claimed. -/
theorem parseTags_counterexample :
    parseTags (some "not json") = .error () := rfl

/-- C2 (amended): a missing (falsy) tags field deserializes to the empty
sequence, but a malformed tags string raises; the raised error aborts the
whole record load, which then retains its previous snapshot. -/
theorem parseTags_spec :
    parseTags none = .ok [] ∧ parseTags (some "") = .ok [] ∧
    parseTags (some "not json") = .error () ∧
    (∀ prev : List Job,
      loadJobs prev (.ok [{ blankRawJob with tags := some "not json" }]) = prev) :=
  ⟨rfl, rfl, rfl, fun _ => rfl⟩

/-- C3: with no authenticated user, `handleSaveJob` takes the
`if (!user) return` rejection: it issues no store call and leaves the
local saved list untouched. -/
theorem handleSaveJob_notAuthenticated (l : List SavedJob) (jobId genId : String)
    (cr : Except Unit RawSavedJob) (dr : Except Unit Unit) :
    handleSaveJob none l jobId genId cr dr = ⟨[], l, l, .notAuthenticated⟩ := rfl

/-- C4 counterexample: a record whose `salaryMin` is present and meets the
threshold is nevertheless excluded, because `0` is falsy in the source's
`job.salaryMin &&` test: the claimed pass-iff-present-and-at-least
characterization is false at threshold `"0"`. -/
theorem matchesSalary_claim_counterexample :
    ¬ (∀ (j : Job) (s : String) (t : Int), s ≠ "" → parseIntJS s = some t →
        (matchesSalary s j = true ↔ ∃ m, j.salaryMin = some m ∧ t ≤ m)) := by
  intro hclaim
  have h := (hclaim { blankJob with salaryMin := some 0 } "0" 0 (by decide) (by decide)).mpr
    ⟨0, rfl, le_refl 0⟩
  exact absurd h (by decide)

/-- C4 (amended): for a non-empty threshold string that parses to `t`,
the salary predicate passes exactly when `salaryMin` is present, nonzero
(JavaScript truthiness), and at least `t`; with an empty threshold every
record passes; and a record with `salaryMin` absent and
`salaryMax = 60000` is excluded by threshold `"50000"`. -/
theorem matchesSalary_spec (j : Job) (s : String) (t : Int) (hs : s ≠ "")
    (ht : parseIntJS s = some t) :
    (matchesSalary s j = true ↔ ∃ m, j.salaryMin = some m ∧ m ≠ 0 ∧ t ≤ m) ∧
    (∀ j' : Job, matchesSalary "" j' = true) ∧
    matchesSalary "50000" { blankJob with salaryMax := some 60000 } = false := by
  refine ⟨?_, matchesSalary_empty, by decide⟩
  cases hm : j.salaryMin with
  | none => simp [matchesSalary, hs, hm]
  | some m => simp [matchesSalary, hs, hm, ht, and_comm]

theorem matchesSalary_spec_witness :
    (matchesSalary "50000" { blankJob with salaryMax := some 60000 } = true ↔
      ∃ m, ({ blankJob with salaryMax := some 60000 } : Job).salaryMin = some m ∧
        m ≠ 0 ∧ (50000 : Int) ≤ m) ∧
    (∀ j' : Job, matchesSalary "" j' = true) ∧
    matchesSalary "50000" { blankJob with salaryMax := some 60000 } = false :=
  matchesSalary_spec { blankJob with salaryMax := some 60000 } "50000" 50000
    (by decide) (by decide)

/-- C5 counterexample: loading performs no deduplication — a store
response with two identical marks yields a local state with both, so the
claimed keep-first-seen dedup regardless of store output is false. -/
theorem loadSavedJobs_no_dedup_counterexample :
    loadSavedJobs [⟨"m1", "j1", "u1", "t0"⟩, ⟨"m1", "j1", "u1", "t0"⟩] =
      [⟨"m1", "j1", "u1", "t0"⟩, ⟨"m1", "j1", "u1", "t0"⟩] ∧
    ¬ atMostOneMarkPerPair
        [(⟨"m1", "j1", "u1", "t0"⟩ : SavedJob), ⟨"m1", "j1", "u1", "t0"⟩] := by
  refine ⟨rfl, ?_⟩
  intro hp
  exact (List.pairwise_cons.mp hp).1 ⟨"m1", "j1", "u1", "t0"⟩ (List.mem_singleton.mpr rfl)
    ⟨rfl, rfl⟩

/-- C5 (amended): `handleSaveJob` preserves the at-most-one-mark-per-pair
invariant (assuming the store's create response echoes the requested
record id), but loading does not enforce it: `loadSavedJobs` maps the
store rows through unchanged, with no deduplication of pairs. -/
theorem handleSaveJob_preserves_uniqueness (user : Option String) (l : List SavedJob)
    (jobId genId : String) (cr : Except Unit RawSavedJob) (dr : Except Unit Unit)
    (hinv : atMostOneMarkPerPair l)
    (hecho : ∀ raw, cr = .ok raw → raw.job_id = jobId) :
    atMostOneMarkPerPair (handleSaveJob user l jobId genId cr dr).finalSaved := by
  cases user with
  | none => exact hinv
  | some uid =>
    cases hf : l.find? (fun save => save.jobId == jobId) with
    | some e =>
      cases dr with
      | ok u =>
        simp only [handleSaveJob, hf]
        exact List.Pairwise.sublist (List.filter_sublist l) hinv
      | error u => simp only [handleSaveJob, hf]; exact hinv
    | none =>
      cases cr with
      | error u => simp only [handleSaveJob, hf]; exact hinv
      | ok raw =>
        simp only [handleSaveJob, hf]
        refine List.pairwise_append.mpr ⟨hinv, List.pairwise_singleton _ _, ?_⟩
        intro a ha b hb hpair
        have hb' : b = ⟨raw.id, raw.job_id, raw.user_id, raw.created_at⟩ :=
          List.mem_singleton.mp hb
        have hja : ¬(a.jobId == jobId) = true := List.find?_eq_none.mp hf a ha
        apply hja
        rw [beq_iff_eq]
        rw [hpair.2, hb']
        exact hecho raw rfl

theorem handleSaveJob_preserves_uniqueness_witness :
    atMostOneMarkPerPair (handleSaveJob (some "u1") [⟨"m0", "j0", "u1", "t0"⟩] "j1" "g1"
      (.ok ⟨"s1", "j1", "u1", "t1"⟩) (.ok ())).finalSaved :=
  handleSaveJob_preserves_uniqueness (some "u1") [⟨"m0", "j0", "u1", "t0"⟩] "j1" "g1"
    (.ok ⟨"s1", "j1", "u1", "t1"⟩) (.ok ())
    (List.pairwise_singleton _ _)
    (fun raw hr => by injection hr with h2; subst h2; rfl)

/-- C6: a failing store call leaves local state at its pre-toggle value —
after a failed delete of an existing mark `isSaved` is still true — and a
failing record load retains the last-known-good job snapshot. -/
theorem handleSaveJob_failure_atomic :
    (∀ (user : Option String) (l : List SavedJob) (jobId genId : String),
      (handleSaveJob user l jobId genId (.error ()) (.error ())).finalSaved = l) ∧
    (∀ (uid : String) (l : List SavedJob) (jobId genId : String)
        (cr : Except Unit RawSavedJob) (e : SavedJob),
      l.find? (fun save => save.jobId == jobId) = some e →
      isJobSaved (handleSaveJob (some uid) l jobId genId cr (.error ())).finalSaved jobId = true) ∧
    (∀ prev : List Job, loadJobs prev (.error ()) = prev) := by
  refine ⟨?_, ?_, fun _ => rfl⟩
  · intro user l jobId genId
    cases user with
    | none => rfl
    | some uid =>
      cases hf : l.find? (fun save => save.jobId == jobId) with
      | none => simp only [handleSaveJob, hf]
      | some e => simp only [handleSaveJob, hf]
  · intro uid l jobId genId cr e hf
    have hmem := List.mem_of_find?_eq_some hf
    have hbeq := List.find?_some hf
    simp only [handleSaveJob, hf, isJobSaved, List.any_eq_true]
    exact ⟨e, hmem, hbeq⟩

theorem handleSaveJob_failure_atomic_witness :
    isJobSaved (handleSaveJob (some "u1") [⟨"m1", "j1", "u1", "t0"⟩] "j1" "g1"
      (Except.error ()) (Except.error ())).finalSaved "j1" = true :=
  handleSaveJob_failure_atomic.2.1 "u1" [⟨"m1", "j1", "u1", "t0"⟩] "j1" "g1"
    (Except.error ()) ⟨"m1", "j1", "u1", "t0"⟩ (by decide)

/-- C7: with every predicate empty `computeVisible` is the identity; the
clear operation resets all five predicates to empty in one step, so after
a clear — whatever predicate changes preceded it — the visible list is the
whole input. -/
theorem filteredJobs_identity_and_clear :
    (∀ jobs : List Job, filteredJobs jobs emptyFilterState = jobs) ∧
    (∀ fs : FilterState, clearFilters fs = emptyFilterState) ∧
    (∀ (jobs : List Job) (fs : FilterState), filteredJobs jobs (clearFilters fs) = jobs) := by
  refine ⟨fun jobs => ?_, fun fs => rfl, fun jobs fs => ?_⟩
  · exact List.filter_eq_self.mpr (fun j _ => passesFilters_empty j)
  · exact List.filter_eq_self.mpr (fun j _ => passesFilters_empty j)

/-- C8: activating one additional predicate (from empty to any value,
the others fixed) never increases the number of visible records. -/
theorem filteredJobs_monotone (jobs : List Job) (fs : FilterState)
    (f : FilterField) (v : String) (h : fs.getField f = "") :
    (filteredJobs jobs (fs.setField f v)).length ≤ (filteredJobs jobs fs).length := by
  refine List.Sublist.length_le (List.monotone_filter_right jobs ?_)
  intro j hj
  cases f with
  | search =>
    simp only [FilterState.getField] at h
    simp only [passesFilters, FilterState.setField, Bool.and_eq_true] at hj ⊢
    obtain ⟨⟨⟨⟨h1, h2⟩, h3⟩, h4⟩, h5⟩ := hj
    exact ⟨⟨⟨⟨by rw [h]; exact matchesSearch_empty j, h2⟩, h3⟩, h4⟩, h5⟩
  | location =>
    simp only [FilterState.getField] at h
    simp only [passesFilters, FilterState.setField, Bool.and_eq_true] at hj ⊢
    obtain ⟨⟨⟨⟨h1, h2⟩, h3⟩, h4⟩, h5⟩ := hj
    exact ⟨⟨⟨⟨h1, by rw [h]; exact matchesLocation_empty j⟩, h3⟩, h4⟩, h5⟩
  | employmentType =>
    simp only [FilterState.getField] at h
    simp only [passesFilters, FilterState.setField, Bool.and_eq_true] at hj ⊢
    obtain ⟨⟨⟨⟨h1, h2⟩, h3⟩, h4⟩, h5⟩ := hj
    exact ⟨⟨⟨⟨h1, h2⟩, by rw [h]; exact matchesEmploymentType_empty j⟩, h4⟩, h5⟩
  | experienceLevel =>
    simp only [FilterState.getField] at h
    simp only [passesFilters, FilterState.setField, Bool.and_eq_true] at hj ⊢
    obtain ⟨⟨⟨⟨h1, h2⟩, h3⟩, h4⟩, h5⟩ := hj
    exact ⟨⟨⟨⟨h1, h2⟩, h3⟩, by rw [h]; exact matchesExperienceLevel_empty j⟩, h5⟩
  | salary =>
    simp only [FilterState.getField] at h
    simp only [passesFilters, FilterState.setField, Bool.and_eq_true] at hj ⊢
    obtain ⟨⟨⟨⟨h1, h2⟩, h3⟩, h4⟩, h5⟩ := hj
    exact ⟨⟨⟨⟨h1, h2⟩, h3⟩, h4⟩, by rw [h]; exact matchesSalary_empty j⟩

theorem filteredJobs_monotone_witness :
    ((emptyFilterState : FilterState).getField .location = "") ∧
    (filteredJobs [blankJob] (emptyFilterState.setField .location "Berlin")).length ≤
      (filteredJobs [blankJob] emptyFilterState).length :=
  ⟨rfl, filteredJobs_monotone [blankJob] emptyFilterState .location "Berlin" rfl⟩

/-- C9: for a non-empty query, the text predicate passes a record exactly
when the lowercased query is a contiguous substring of the lowercased
title, company, or description, or of some tag (OR across the four
fields). -/
theorem matchesSearch_iff (q : String) (j : Job) (hq : q ≠ "") :
    matchesSearch q j = true ↔
      ((toLowerCase q).data <:+: (toLowerCase j.title).data ∨
       (toLowerCase q).data <:+: (toLowerCase j.company).data ∨
       (toLowerCase q).data <:+: (toLowerCase j.description).data ∨
       ∃ tag ∈ j.tags, (toLowerCase q).data <:+: (toLowerCase tag).data) := by
  simp [matchesSearch, jsIncludes_iff, List.any_eq_true, hq, or_assoc]

theorem matchesSearch_iff_witness :
    matchesSearch "REACT" { blankJob with tags := ["React"] } = true :=
  (matchesSearch_iff "REACT" { blankJob with tags := ["React"] } (by decide)).mpr
    (Or.inr (Or.inr (Or.inr ⟨"React", by decide, by decide⟩)))

/-- C10 counterexample: the saved view is not a function of only the
current user's marks — two local lists agreeing on the current user's
marks but differing in another user's mark give different `isSaved`
answers — and the toggle deletes a mark belonging to another user. -/
theorem saved_view_scoping_counterexample :
    (¬ (∀ (u : String) (l₁ l₂ : List SavedJob),
        l₁.filter (fun save => save.userId == u) =
          l₂.filter (fun save => save.userId == u) →
        ∀ jobId, isJobSaved l₁ jobId = isJobSaved l₂ jobId)) ∧
    (handleSaveJob (some "alice") [⟨"m1", "j1", "bob", "t0"⟩] "j1" "g1"
      (.ok ⟨"s1", "j1", "alice", "t1"⟩) (.ok ())).ops = [.delete "m1"] := by
  constructor
  · intro hclaim
    exact absurd (hclaim "alice" [] [⟨"m1", "j1", "bob", "t0"⟩] (by decide) "j1")
      (by decide)
  · decide

/-- C10 (amended): `isJobSaved` and the existing-mark lookup inside
`handleSaveJob` are functions of the marks' record ids only — rewriting
every mark's `userId` arbitrarily changes neither the saved view nor
which mark id the toggle would delete.  User scoping of the local list
comes solely from the user-filtered store query at load time, not from
the engine. -/
theorem isJobSaved_ignores_userId (l : List SavedJob) (f : SavedJob → String)
    (jobId : String) :
    isJobSaved (l.map (fun save => { save with userId := f save })) jobId =
      isJobSaved l jobId ∧
    ((l.map (fun save => { save with userId := f save })).find?
        (fun save => save.jobId == jobId)).map SavedJob.id =
      (l.find? (fun save => save.jobId == jobId)).map SavedJob.id := by
  constructor
  · rw [isJobSaved, List.any_map]
    rfl
  · rw [List.find?_map, Option.map_map]
    rfl
